import Mathlib

/-!
Verification of the cue-scrubbing core of `cleanvid.py`
(`VidCleaner.CreateCleanSubAndMuteList`, `VidCleaner.__init__`,
`VidCleaner.MultiplexCleanVideo`, `RunCleanvid`).

Times are pysrt ordinals: integer milliseconds (`SubRipTime.ordinal`).
The compiled profanity matcher (`replacer.sub`) is passed around as an
abstract substitution function `ap : String → String`; the concrete
regex model needed for the empty-vocabulary analysis appears further
below.
-/

/-- A pysrt `SubRipItem`: cue index, start/end ordinals (ms) and text.
`stop` stands for the Python attribute `end` (a Lean keyword). -/
structure SubRipItem where
  index : Nat
  start : Int
  stop : Int
  text : String
deriving Repr, DecidableEq

/-- One entry of `jsonDumpList` (cleanvid.py lines 392-399): the old and
new text and the cue's original, un-padded timestamps. -/
structure EditRecord where
  old : String
  new : String
  start : Int
  stop : Int
deriving Repr, DecidableEq

/-- The three accumulators of the scrub loop (lines 360-416):
`newSubs`, `newTimestampPairs` and `jsonDumpList`. -/
structure ScrubOut where
  newSubs : List SubRipItem
  pairs : List (Int × Int)
  edits : List EditRecord
deriving Repr, DecidableEq

/-- The `seconds` component of a pysrt time with ordinal `o`:
`int(o % 60000 / 1000)`. -/
def secondsComponent (o : Int) : Int := (o.emod 60000).ediv 1000

/-- The dummy cue appended at line 346-353:
`SubRipItem(index=len(subs)+1, start=(subs[-1].end.seconds if subs else 0)+1,
end=(subs[-1].end.seconds if subs else 0)+2, text='Fin')`.
The int arguments are coerced by pysrt as ordinals (milliseconds), and
`.seconds` is the seconds *component* of the last end time. -/
def dummySub (subs : List SubRipItem) : SubRipItem :=
  let lastEndSeconds : Int :=
    match subs.getLast? with
    | some s => secondsComponent s.stop
    | none => 0
  { index := subs.length + 1
    start := lastEndSeconds + 1
    stop := lastEndSeconds + 2
    text := "Fin" }

/-- `dirty`: substitution changed the cue's text (`newText != sub.text`). -/
def dirty (ap : String → String) (c : SubRipItem) : Bool :=
  ap c.text != c.text

/-- The lookback test of lines 383-386:
`(prevNaughtySub is not None) and
 ((sub.start.ordinal - prevNaughtySub.end.ordinal) <= self.swearsPadMillisec)`. -/
def prevHit (pad : Int) (sub : SubRipItem) : Option SubRipItem → Bool
  | some prevSub => decide (sub.start - prevSub.stop ≤ pad)
  | none => false

/-- The full retention condition of lines 367-389. -/
def retainCond (ap : String → String) (pad : Int) (prevNaughty : Option SubRipItem)
    (sub subPeek : SubRipItem) : Bool :=
  (ap sub.text != sub.text)
    || (decide (0 < pad)
        && (((ap subPeek.text != subPeek.text)
              && decide (subPeek.start - sub.stop ≤ pad))
            || prevHit pad sub prevNaughty))

/-- `SubRipTime.from_ordinal(o).to_time()` in pysrt: the hour component
is `o // 3600000` (floor division, no clamping) and `datetime.time`
accepts only hours 0..23, while the minute, second and microsecond
components are taken modulo their ranges and always fit; so the
conversion succeeds exactly when `0 ≤ o < 86400000` and raises
`ValueError` otherwise. -/
def toTimeValid (o : Int) : Bool := decide (0 ≤ o) && decide (o < 86400000)

/-- The `ValueError` raised by `datetime.time` on an out-of-range hour. -/
def valueErrorHour : String := "ValueError: hour must be in 0..23"

/-- The scrub loop of lines 360-416: a single forward pass over
`pairwise(subs)` threading the `prevNaughtySub` memory.  A retained cue
is emitted with its substituted text; a retained dirty cue records the
padded timestamp pair
`[from_ordinal(start - pad).to_time(), from_ordinal(end + pad).to_time()]`
(lines 405-408) and, when the json dump is enabled, an edit record; a
retained clean cue records its own pair through the same `to_time`
conversion (line 411); a non-retained cue is emitted only under
`fullSubs` and records nothing.  Each `to_time` call raises `ValueError`
when its ordinal falls outside the representable day — e.g. whenever
the pad exceeds a retained dirty cue's start — and the exception aborts
the whole pass, discarding the method's local accumulators. -/
def scrubGo (ap : String → String) (pad : Int) (fullSubs jsonDump : Bool)
    (prevNaughty : Option SubRipItem) : List SubRipItem → Except String ScrubOut
  | sub :: subPeek :: rest =>
    let newText := ap sub.text
    if retainCond ap pad prevNaughty sub subPeek then
      let subScrubbed := newText != sub.text
      let newSub : SubRipItem := { sub with text := newText }
      let t1 := if subScrubbed then sub.start - pad else sub.start
      let t2 := if subScrubbed then sub.stop + pad else sub.stop
      if toTimeValid t1 && toTimeValid t2 then
        match scrubGo ap pad fullSubs jsonDump
            (if subScrubbed then some newSub else none) (subPeek :: rest) with
        | Except.error e => Except.error e
        | Except.ok tail =>
          Except.ok
            { newSubs := newSub :: tail.newSubs
              pairs := (t1, t2) :: tail.pairs
              edits := (if subScrubbed && jsonDump then
                          [{ old := sub.text, new := newText,
                             start := sub.start, stop := sub.stop }]
                        else []) ++ tail.edits }
      else Except.error valueErrorHour
    else
      match scrubGo ap pad fullSubs jsonDump none (subPeek :: rest) with
      | Except.error e => Except.error e
      | Except.ok tail =>
        Except.ok
          { tail with newSubs := (if fullSubs then [sub] else []) ++ tail.newSubs }
  | _ => Except.ok ⟨[], [], []⟩

/-- Lines 341-416 of `CreateCleanSubAndMuteList`: append the dummy cue,
then run the scrub loop with empty `prevNaughtySub` memory; a `to_time`
`ValueError` propagates out of the method. -/
def createCleanSub (ap : String → String) (pad : Int) (fullSubs jsonDump : Bool)
    (subs : List SubRipItem) : Except String ScrubOut :=
  scrubGo ap pad fullSubs jsonDump none (subs ++ [dummySub subs])

/-! Declarative (spec-side) retention rule, following the claim's words:
a cue is retained iff it is dirty, or the pad is positive and the
immediate successor is dirty within pad distance, or the pad is positive
and the immediately preceding cue is dirty within pad distance
(single-hop lookback: only the previous cue's own dirtiness counts). -/

/-- Spec-side lookback: the immediately preceding cue exists, is itself
dirty, and ends within `pad` of this cue's start. -/
def prevDirtyHit (ap : String → String) (pad : Int) (sub : SubRipItem) :
    Option SubRipItem → Bool
  | some prevSub => dirty ap prevSub && decide (sub.start - prevSub.stop ≤ pad)
  | none => false

/-- Spec-side local retention rule for a cue `c` with predecessor `prev`
and immediate successor `nxt`. -/
def retainedLocal (ap : String → String) (pad : Int)
    (prev : Option SubRipItem) (c nxt : SubRipItem) : Bool :=
  dirty ap c
    || (decide (0 < pad)
        && ((dirty ap nxt && decide (nxt.start - c.stop ≤ pad))
            || prevDirtyHit ap pad c prev))

/-- Spec-side retained-cue list: every cue that has a successor is kept
iff `retainedLocal` accepts it; the predecessor is simply the previous
list element. -/
def retainedSpecGo (ap : String → String) (pad : Int)
    (prev : Option SubRipItem) : List SubRipItem → List SubRipItem
  | c :: nxt :: rest =>
    (if retainedLocal ap pad prev c nxt then [c] else [])
      ++ retainedSpecGo ap pad (some c) (nxt :: rest)
  | _ => []

/-- The declaratively retained cues of a track (dummy cue appended, as
the code does). -/
def retainedSpec (ap : String → String) (pad : Int)
    (subs : List SubRipItem) : List SubRipItem :=
  retainedSpecGo ap pad none (subs ++ [dummySub subs])

/-- A retained cue as it appears in `newSubs`: text substituted,
timestamps untouched. -/
def mutate (ap : String → String) (c : SubRipItem) : SubRipItem :=
  { c with text := ap c.text }

/-- Invariant linking the loop's `prevNaughtySub` memory with the
spec-side previous cue: the memory holds (the mutated copy of) the
previous cue exactly when that cue was dirty. -/
def PrevRel (ap : String → String) : Option SubRipItem → Option SubRipItem → Prop
  | none, none => True
  | none, some c => dirty ap c = false
  | some m, some c => dirty ap c = true ∧ m.stop = c.stop
  | some _, none => False

theorem prevHit_eq_prevDirtyHit (ap : String → String) (pad : Int)
    (sub : SubRipItem) (p q : Option SubRipItem) (h : PrevRel ap p q) :
    prevHit pad sub p = prevDirtyHit ap pad sub q := by
  cases p <;> cases q <;>
    simp_all [PrevRel, prevHit, prevDirtyHit]

theorem retainCond_eq_retainedLocal (ap : String → String) (pad : Int)
    (sub subPeek : SubRipItem) (p q : Option SubRipItem) (h : PrevRel ap p q) :
    retainCond ap pad p sub subPeek = retainedLocal ap pad q sub subPeek := by
  unfold retainCond retainedLocal dirty
  rw [prevHit_eq_prevDirtyHit ap pad sub p q h]

/-- The pair recorded for a retained cue: padded when dirty, original
otherwise. -/
def pairOf (ap : String → String) (pad : Int) (c : SubRipItem) : Int × Int :=
  if dirty ap c then (c.start - pad, c.stop + pad) else (c.start, c.stop)

/-- The edit record of a retained dirty cue. -/
def editOf (ap : String → String) (c : SubRipItem) : EditRecord :=
  { old := c.text, new := ap c.text, start := c.start, stop := c.stop }

/-- Every timestamp the pass would record is representable: both
members of each declaratively retained cue's recorded pair (padded for
dirty cues, the cue's own for proximity-retained ones) survive
`to_time`. -/
def retainedValid (ap : String → String) (pad : Int)
    (subs : List SubRipItem) : Bool :=
  (retainedSpec ap pad subs).all (fun c =>
    toTimeValid (pairOf ap pad c).1 && toTimeValid (pairOf ap pad c).2)

/-- Master characterization of the scrub loop: given the memory
invariant, and provided every declaratively retained cue's recorded
pair survives `to_time`, the loop completes; the timestamp pairs are
`pairOf` over the retained cues, the edit records are `editOf` over the
retained dirty cues (when the json dump is enabled), and — without
`fullSubs` — the emitted cues are exactly the retained cues with
substituted text. -/
theorem scrubGo_char (ap : String → String) (pad : Int) (ff jd : Bool) :
    ∀ (l : List SubRipItem) (p q : Option SubRipItem), PrevRel ap p q →
      (retainedSpecGo ap pad q l).all (fun c =>
          toTimeValid (pairOf ap pad c).1 && toTimeValid (pairOf ap pad c).2)
        = true →
      ∃ out, scrubGo ap pad ff jd p l = Except.ok out
        ∧ out.pairs = (retainedSpecGo ap pad q l).map (pairOf ap pad)
        ∧ out.edits = (if jd then
            ((retainedSpecGo ap pad q l).filter (fun c => dirty ap c)).map (editOf ap)
           else [])
        ∧ (ff = false →
            out.newSubs = (retainedSpecGo ap pad q l).map (mutate ap)) := by
  intro l
  induction l with
  | nil =>
    intro p q _ _
    exact ⟨⟨[], [], []⟩, rfl, by simp [retainedSpecGo],
      by simp [retainedSpecGo], fun _ => by simp [retainedSpecGo]⟩
  | cons sub rest ih =>
    intro p q hrel hval
    cases rest with
    | nil =>
      exact ⟨⟨[], [], []⟩, rfl, by simp [retainedSpecGo],
        by simp [retainedSpecGo], fun _ => by simp [retainedSpecGo]⟩
    | cons subPeek rest2 =>
      have hcond := retainCond_eq_retainedLocal ap pad sub subPeek p q hrel
      have hspec : retainedSpecGo ap pad q (sub :: subPeek :: rest2)
          = (if retainedLocal ap pad q sub subPeek then [sub] else [])
            ++ retainedSpecGo ap pad (some sub) (subPeek :: rest2) := rfl
      cases hret : retainedLocal ap pad q sub subPeek with
      | true =>
        rw [hspec, hret] at hval
        simp only [if_true, List.singleton_append, List.all_cons,
          Bool.and_eq_true] at hval
        obtain ⟨⟨hv1, hv2⟩, hvtail⟩ := hval
        cases hd : dirty ap sub with
        | true =>
          -- retained and dirty
          have hd2 : (ap sub.text != sub.text) = true := by
            simpa [dirty] using hd
          simp only [pairOf, hd, if_true] at hv1 hv2
          obtain ⟨out, hout, hp, he, hn⟩ :=
            ih (some (mutate ap sub)) (some sub) ⟨hd, rfl⟩ hvtail
          simp only [mutate] at hout
          refine ⟨{ newSubs := { sub with text := ap sub.text } :: out.newSubs
                    pairs := (sub.start - pad, sub.stop + pad) :: out.pairs
                    edits := (if jd then [editOf ap sub] else []) ++ out.edits },
                  ?_, ?_, ?_, ?_⟩
          · simp [scrubGo, hcond, hret, hd2, hv1, hv2, hout, editOf]
          · simp [hspec, hret, pairOf, hd, hp]
          · cases jd <;> simp [hspec, hret, hd, he, editOf]
          · intro hff
            simp [hspec, hret, mutate, hn hff]
        | false =>
          -- retained but clean
          have hd2 : (ap sub.text != sub.text) = false := by
            simpa [dirty] using hd
          simp only [pairOf, hd] at hv1 hv2
          simp only [Bool.false_eq_true, if_false] at hv1 hv2
          obtain ⟨out, hout, hp, he, hn⟩ := ih none (some sub) hd hvtail
          refine ⟨{ newSubs := { sub with text := ap sub.text } :: out.newSubs
                    pairs := (sub.start, sub.stop) :: out.pairs
                    edits := out.edits },
                  ?_, ?_, ?_, ?_⟩
          · simp [scrubGo, hcond, hret, hd2, hv1, hv2, hout]
          · simp [hspec, hret, pairOf, hd, hp]
          · cases jd <;> simp [hspec, hret, hd, he]
          · intro hff
            simp [hspec, hret, mutate, hn hff]
      | false =>
        -- not retained; in particular the cue is clean
        rw [hspec, hret] at hval
        simp only [Bool.false_eq_true, if_false, List.nil_append] at hval
        have hd : dirty ap sub = false := by
          revert hret; unfold retainedLocal
          cases dirty ap sub <;> simp
        obtain ⟨out, hout, hp, he, hn⟩ := ih none (some sub) hd hval
        refine ⟨{ newSubs := (if ff then [sub] else []) ++ out.newSubs
                  pairs := out.pairs
                  edits := out.edits },
                ?_, ?_, ?_, ?_⟩
        · simp [scrubGo, hcond, hret, hout]
        · simp [hspec, hret, hp]
        · simp [hspec, hret, he]
        · intro hff
          subst hff
          simp [hspec, hret, hn rfl]

/-- With a zero pad, the declarative rule keeps exactly the dirty cues
among the processed ones (every cue except the final, look-ahead-only
element). -/
theorem retainedSpecGo_pad_zero (ap : String → String) :
    ∀ (l : List SubRipItem) (prev : Option SubRipItem),
      retainedSpecGo ap 0 prev l = l.dropLast.filter (fun c => dirty ap c) := by
  intro l
  induction l with
  | nil => intro prev; simp [retainedSpecGo]
  | cons c rest ih =>
    intro prev
    cases rest with
    | nil => simp [retainedSpecGo]
    | cons nxt rest2 =>
      have h0 : retainedLocal ap 0 prev c nxt = dirty ap c := by
        simp [retainedLocal]
      cases hd : dirty ap c <;>
        simp [retainedSpecGo, h0, hd, ih (some c), List.dropLast]

/-- The dummy cue is dropped again when taking `dropLast` of the
extended track. -/
theorem dropLast_append_dummy (subs : List SubRipItem) :
    (subs ++ [dummySub subs]).dropLast = subs := by
  simp

/-- Concrete substitution table `damn -> ****`. -/
def apDamn : String → String := fun s => if s == "damn" then "****" else s

/-- A dirty cue starting half a second into the track. -/
def cueC1 : List SubRipItem :=
  [{ index := 1, start := 500, stop := 1500, text := "damn" }]

/-- C1 (counterexample): with a 1000 ms pad the retention rule keeps the
dirty cue, but instead of delivering it the pass raises `ValueError`:
the padded start `500 - 1000 = -500` gives `to_time` the hour `-1`. -/
theorem claim_C1_counterexample :
    retainedSpec apDamn 1000 cueC1 = cueC1
      ∧ dirty apDamn { index := 1, start := 500, stop := 1500, text := "damn" }
          = true
      ∧ createCleanSub apDamn 1000 false true cueC1
          = Except.error valueErrorHour :=
  ⟨by decide, by decide, rfl⟩

/-- C1 (amended): a cue is retained iff it is dirty, or the pad is
positive and its immediate successor (dummy included) is dirty within
pad distance, or the pad is positive and the immediately preceding cue
was dirty within pad distance (single-hop lookback, reset on
retained-but-clean and on non-retained cues); with `padMillis = 0` and
`keepUnscrubbed = false` exactly the dirty cues are retained — all of
this provided every retained cue's recorded timestamps stay inside the
representable day, without which the pass aborts mid-loop with
`ValueError` and delivers nothing. -/
theorem claim_C1_retention_rule (ap : String → String) (pad : Int) (jd : Bool)
    (subs : List SubRipItem)
    (hvalid : retainedValid ap pad subs = true)
    (hvalid0 : retainedValid ap 0 subs = true) :
    (∃ out, createCleanSub ap pad false jd subs = Except.ok out
        ∧ out.newSubs = (retainedSpec ap pad subs).map (mutate ap))
      ∧ (∃ out, createCleanSub ap 0 false jd subs = Except.ok out
          ∧ out.newSubs = (subs.filter (fun c => dirty ap c)).map (mutate ap)) := by
  have hrel : PrevRel ap none none := trivial
  constructor
  · obtain ⟨out, hout, _, _, hn⟩ :=
      scrubGo_char ap pad false jd (subs ++ [dummySub subs]) none none hrel hvalid
    exact ⟨out, hout, hn rfl⟩
  · obtain ⟨out, hout, _, _, hn⟩ :=
      scrubGo_char ap 0 false jd (subs ++ [dummySub subs]) none none hrel hvalid0
    refine ⟨out, hout, ?_⟩
    rw [hn rfl, retainedSpecGo_pad_zero, dropLast_append_dummy]

/-- Concrete substitution table `bad -> ***` used in counterexamples. -/
def apBad : String → String := fun s => if s == "bad" then "***" else s

/-- A dirty cue followed 200 ms later by a clean cue. -/
def cuesC2 : List SubRipItem :=
  [{ index := 1, start := 1000, stop := 2000, text := "bad" },
   { index := 2, start := 2200, stop := 3000, text := "hello there" }]

/-- C1 witness at a concrete in-range input. -/
theorem claim_C1_witness :
    retainedValid apBad 500 cuesC2 = true
      ∧ ((∃ out, createCleanSub apBad 500 false true cuesC2 = Except.ok out
            ∧ out.newSubs = (retainedSpec apBad 500 cuesC2).map (mutate apBad))
          ∧ (∃ out, createCleanSub apBad 0 false true cuesC2 = Except.ok out
              ∧ out.newSubs
                  = (cuesC2.filter (fun c => dirty apBad c)).map (mutate apBad))) :=
  ⟨by decide,
    claim_C1_retention_rule apBad 500 true cuesC2 (by decide) (by decide)⟩

/-- C2 (amended): when the pass completes — every recorded timestamp
inside the representable day — it records one timestamp pair per
retained cue: the padded span for a retained dirty cue, the cue's own
unpadded span for a cue retained only via neighbor proximity. -/
theorem claim_C2_amended (ap : String → String) (pad : Int) (ff jd : Bool)
    (subs : List SubRipItem) (hvalid : retainedValid ap pad subs = true) :
    ∃ out, createCleanSub ap pad ff jd subs = Except.ok out
      ∧ out.pairs = (retainedSpec ap pad subs).map (pairOf ap pad) := by
  obtain ⟨out, hout, hp, _, _⟩ :=
    scrubGo_char ap pad ff jd (subs ++ [dummySub subs]) none none trivial hvalid
  exact ⟨out, hout, hp⟩

/-- C2 witness at a concrete in-range input. -/
theorem claim_C2_witness :
    retainedValid apBad 500 cuesC2 = true
      ∧ ∃ out, createCleanSub apBad 500 false true cuesC2 = Except.ok out
          ∧ out.pairs = (retainedSpec apBad 500 cuesC2).map (pairOf apBad 500) :=
  ⟨by decide, claim_C2_amended apBad 500 false true cuesC2 (by decide)⟩

/-- The scrub output on `cuesC2` with pad 500. -/
def outC2 : ScrubOut :=
  { newSubs := [{ index := 1, start := 1000, stop := 2000, text := "***" },
                { index := 2, start := 2200, stop := 3000, text := "hello there" }]
    pairs := [(500, 2500), (2200, 3000)]
    edits := [{ old := "bad", new := "***", start := 1000, stop := 2000 }] }

/-- C2 (counterexample): with pad 500 ms the clean neighbor is retained
and contributes its own (unpadded) timestamp pair, so there are two
pairs but only one retained-and-dirty cue. -/
theorem claim_C2_counterexample :
    createCleanSub apBad 500 false true cuesC2 = Except.ok outC2
      ∧ outC2.pairs = [(500, 2500), (2200, 3000)]
      ∧ ((retainedSpec apBad 500 cuesC2).filter
          (fun c => dirty apBad c)).length = 1 :=
  ⟨rfl, rfl, by decide⟩

/-- Concrete substitution table `crud -> @@@@`. -/
def apCrud : String → String := fun s => if s == "crud" then "@@@@" else s

/-- A dirty cue starting 200 ms into the track. -/
def cueC3 : List SubRipItem :=
  [{ index := 1, start := 200, stop := 900, text := "crud" }]

/-- C3 (counterexample): the retention rule keeps the dirty cue, yet no
padded pair and no edit record is ever delivered: with an 800 ms pad the
padded start `200 - 800 = -600` makes `to_time` raise `ValueError` and
the pass aborts. -/
theorem claim_C3_counterexample :
    retainedSpec apCrud 800 cueC3 = cueC3
      ∧ dirty apCrud { index := 1, start := 200, stop := 900, text := "crud" }
          = true
      ∧ createCleanSub apCrud 800 false true cueC3
          = Except.error valueErrorHour :=
  ⟨by decide, by decide, rfl⟩

/-- C3 (amended): when the pass completes — every recorded timestamp
inside the representable day — every retained dirty cue records an
edit record carrying the old and new text and the original un-padded
timestamps, and its timestamp pair is the padded span; a cue retained
only via proximity keeps its own un-padded span and yields no edit
record.  When a padded bound leaves the representable day the pass
instead raises `ValueError` and records nothing. -/
theorem claim_C3_edit_records (ap : String → String) (pad : Int) (ff : Bool)
    (subs : List SubRipItem) (hvalid : retainedValid ap pad subs = true) :
    ∃ out, createCleanSub ap pad ff true subs = Except.ok out
      ∧ out.edits
          = ((retainedSpec ap pad subs).filter (fun c => dirty ap c)).map (editOf ap)
      ∧ out.pairs = (retainedSpec ap pad subs).map (pairOf ap pad) := by
  obtain ⟨out, hout, hp, he, _⟩ :=
    scrubGo_char ap pad ff true (subs ++ [dummySub subs]) none none trivial hvalid
  exact ⟨out, hout, by simpa using he, hp⟩

/-- C3 witness at a concrete in-range input. -/
theorem claim_C3_witness :
    retainedValid apBad 500 cuesC2 = true
      ∧ ∃ out, createCleanSub apBad 500 false true cuesC2 = Except.ok out
          ∧ out.edits = ((retainedSpec apBad 500 cuesC2).filter
              (fun c => dirty apBad c)).map (editOf apBad)
          ∧ out.pairs = (retainedSpec apBad 500 cuesC2).map (pairOf apBad 500) :=
  ⟨by decide, claim_C3_edit_records apBad 500 false cuesC2 (by decide)⟩

/-! Timeline builder: the `pairwise(newTimestampPairs)` loop of lines
442-496, producing the `afade` directives (`muteTimeList`), the EDL
lines and the PlexAutoSkip markers. -/

/-- `o // 3600000` - the `hours` component (pysrt's time descriptor
uses floor division). -/
def pyHours (o : Int) : Int := o.fdiv 3600000

/-- `int(o % 3600000 / 60000)` - the `minutes` component. -/
def pyMinutes (o : Int) : Int := (o.emod 3600000).ediv 60000

/-- `int(o % 60000 / 1000)` - the `seconds` component. -/
def pySeconds (o : Int) : Int := (o.emod 60000).ediv 1000

/-- `int(o % 1000)` - the `milliseconds` component. -/
def pyMillis (o : Int) : Int := o.emod 1000

/-- The float second value `hour*3600 + minute*60 + second +
microsecond/1e6` computed at lines 451-468 from a pair member with
ordinal `o`, scaled to integer milliseconds (the value is an exact
multiple of 1 ms). -/
def lineSecondsMs (o : Int) : Int :=
  pyHours o * 3600000 + pyMinutes o * 60000 + pySeconds o * 1000 + pyMillis o

/-- One `afade` audio directive,
`afade=enable='between(t,enableFrom,enableTo)':t=<out|in>:st=<st>:d=10ms`;
times are held in milliseconds. -/
structure FadeDirective where
  fadeOut : Bool
  enableFrom : Int
  enableTo : Int
  st : Int
  durMs : Nat
deriving Repr, DecidableEq

/-- One EDL line: `lineStart` and `lineEnd` in milliseconds; the file
renders them as seconds with 1 and 3 decimals followed by a tab and the
literal `1` (the float rendering itself is not re-modelled). -/
structure EdlLine where
  lineStart : Int
  lineEnd : Int
deriving Repr, DecidableEq

/-- One PlexAutoSkip marker `{start, end, mode: "volume"}` in
milliseconds (`round(lineStart * 1000.0)`). -/
structure SkipMarker where
  startMs : Int
  endMs : Int
deriving Repr, DecidableEq

/-- The three accumulators of the timeline loop. -/
structure TimelineOut where
  muteTimeList : List FadeDirective
  edlLines : List EdlLine
  plexMarkers : List SkipMarker
deriving Repr, DecidableEq

/-- The loop `for timePair, timePairPeek in pairwise(newTimestampPairs)`
(lines 450-492): each iteration appends a fade-out directive for
`timePair`, a fade-in directive from `timePair`'s end to the next
pair's start, and - under the respective flags - an EDL line and a skip
marker for `timePair`. -/
def timelinePass (edl plex : Bool) : List (Int × Int) → TimelineOut
  | timePair :: timePairPeek :: rest =>
    let tail := timelinePass edl plex (timePairPeek :: rest)
    let lineStart := lineSecondsMs timePair.1
    let lineEnd := lineSecondsMs timePair.2
    let lineStartPeek := lineSecondsMs timePairPeek.1
    { muteTimeList :=
        { fadeOut := true, enableFrom := lineStart, enableTo := lineEnd,
          st := lineStart, durMs := 10 }
          :: { fadeOut := false, enableFrom := lineEnd, enableTo := lineStartPeek,
               st := lineEnd, durMs := 10 }
          :: tail.muteTimeList
      edlLines :=
        (if edl then [{ lineStart := lineStart, lineEnd := lineEnd }] else [])
          ++ tail.edlLines
      plexMarkers :=
        (if plex then [{ startMs := lineStart, endMs := lineEnd }] else [])
          ++ tail.plexMarkers }
  | _ => ⟨[], [], []⟩

/-- Line 493: `if self.edl and (len(edlLines) > 0)` guards writing the
EDL file. -/
def edlFileWritten (edl : Bool) (t : TimelineOut) : Bool :=
  edl && decide (0 < t.edlLines.length)

/-- The two directives generated for the consecutive pair `(a, b)`. -/
def fadePairDirectives (ab : (Int × Int) × (Int × Int)) : List FadeDirective :=
  [{ fadeOut := true, enableFrom := lineSecondsMs ab.1.1,
     enableTo := lineSecondsMs ab.1.2, st := lineSecondsMs ab.1.1, durMs := 10 },
   { fadeOut := false, enableFrom := lineSecondsMs ab.1.2,
     enableTo := lineSecondsMs ab.2.1, st := lineSecondsMs ab.1.2, durMs := 10 }]

/-- C4 (amended): every *consecutive pair* `(a, b)` of mute intervals
yields a fade-out over `[a.start, a.end]` starting at `a.start` and a
fade-in over `[a.end, b.start]` starting at `a.end`, both with a 10 ms
transition; the final interval appears in no pair as first component, so
it contributes no directive at all — neither a fade-out nor a fade-in —
and the directive count is `2 * (n - 1)` for `n` intervals. -/
theorem claim_C4_amended (edl plex : Bool) (pairs : List (Int × Int)) :
    (timelinePass edl plex pairs).muteTimeList
        = (pairs.zip pairs.tail).flatMap fadePairDirectives
      ∧ (timelinePass edl plex pairs).muteTimeList.length
        = 2 * (pairs.length - 1) := by
  have key : ∀ l : List (Int × Int),
      (timelinePass edl plex l).muteTimeList
        = (l.zip l.tail).flatMap fadePairDirectives := by
    intro l
    induction l with
    | nil => simp [timelinePass]
    | cons a rest ih =>
      cases rest with
      | nil => simp [timelinePass]
      | cons b rest2 =>
        simp [timelinePass, fadePairDirectives, ih]
  refine ⟨key pairs, ?_⟩
  rw [key pairs]
  have hlen : ∀ l : List (Int × Int),
      ((l.zip l.tail).flatMap fadePairDirectives).length = 2 * (l.length - 1) := by
    intro l
    induction l with
    | nil => simp
    | cons a rest ih =>
      cases rest with
      | nil => simp
      | cons b rest2 =>
        simp only [List.tail_cons, List.zip_cons_cons, List.flatMap_cons,
          List.length_append, List.length_cons] at *
        simp only [fadePairDirectives, List.length_cons, List.length_nil]
        omega
  exact hlen pairs

/-- Concrete substitution table `darn -> ####`. -/
def apDarn : String → String := fun s => if s == "darn" then "####" else s

/-- A single dirty cue. -/
def cueC4 : List SubRipItem :=
  [{ index := 1, start := 1000, stop := 2000, text := "darn" }]

/-- The scrub output on `cueC4` with pad 0. -/
def outC4 : ScrubOut :=
  { newSubs := [{ index := 1, start := 1000, stop := 2000, text := "####" }]
    pairs := [(1000, 2000)]
    edits := [{ old := "darn", new := "####", start := 1000, stop := 2000 }] }

/-- C4 (counterexample): a single retained dirty cue yields one mute
interval but the pairwise walk emits *no* directive for it - in
particular not the fade-out the claim promises the final interval. -/
theorem claim_C4_counterexample :
    createCleanSub apDarn 0 false true cueC4 = Except.ok outC4
      ∧ outC4.pairs.length = 1
      ∧ (timelinePass false false outC4.pairs).muteTimeList = [] :=
  ⟨rfl, rfl, by decide⟩

/-- C6 (amended): the EDL holds one line per *consecutive pair* of mute
intervals - i.e. one per interval except the final one - carrying that
pair's first interval's start and end; with the flag off no line is
produced, and the file is written iff at least one line exists. -/
theorem claim_C6_amended (plex : Bool) (pairs : List (Int × Int)) :
    (timelinePass true plex pairs).edlLines
        = (pairs.zip pairs.tail).map (fun ab =>
            { lineStart := lineSecondsMs ab.1.1, lineEnd := lineSecondsMs ab.1.2 })
      ∧ (timelinePass false plex pairs).edlLines = []
      ∧ (edlFileWritten true (timelinePass true plex pairs) = true
          ↔ (timelinePass true plex pairs).edlLines ≠ []) := by
  have h1 : ∀ (e : Bool) (l : List (Int × Int)),
      (timelinePass e plex l).edlLines
        = if e then (l.zip l.tail).map (fun ab =>
            ({ lineStart := lineSecondsMs ab.1.1,
               lineEnd := lineSecondsMs ab.1.2 } : EdlLine)) else [] := by
    intro e l
    induction l with
    | nil => cases e <;> simp [timelinePass]
    | cons a rest ih =>
      cases rest with
      | nil => cases e <;> simp [timelinePass]
      | cons b rest2 =>
        cases e <;> simp_all [timelinePass]
  refine ⟨by simpa using h1 true pairs, by simpa using h1 false pairs, ?_⟩
  constructor
  · intro hw
    simp only [edlFileWritten, Bool.true_and, decide_eq_true_eq] at hw
    intro hnil
    rw [hnil] at hw
    simp at hw
  · intro hne
    simp only [edlFileWritten, Bool.true_and, decide_eq_true_eq]
    exact List.length_pos.mpr hne

/-- Concrete substitution table `heck -> ****`. -/
def apHeck : String → String := fun s => if s == "heck" then "****" else s

/-- A single dirty cue for the EDL counterexample. -/
def cueC6 : List SubRipItem :=
  [{ index := 1, start := 1000, stop := 2000, text := "heck" }]

/-- The scrub output on `cueC6` with pad 0. -/
def outC6 : ScrubOut :=
  { newSubs := [{ index := 1, start := 1000, stop := 2000, text := "****" }]
    pairs := [(1000, 2000)]
    edits := [{ old := "heck", new := "****", start := 1000, stop := 2000 }] }

/-- C6 (counterexample): one mute interval exists, yet the EDL gets zero
lines (the claim requires exactly one) and the file is not written. -/
theorem claim_C6_counterexample :
    createCleanSub apHeck 0 false true cueC6 = Except.ok outC6
      ∧ outC6.pairs.length = 1
      ∧ (timelinePass true false outC6.pairs).edlLines = []
      ∧ edlFileWritten true (timelinePass true false outC6.pairs) = false :=
  ⟨rfl, rfl, by decide, by decide⟩

/-! Constructor (`VidCleaner.__init__`, lines 217-285), the multiplex
decision (`MultiplexCleanVideo`, lines 505-562) and the CLI driver gate
(`RunCleanvid`, lines 698-742).  The filesystem is modelled as the list
of existing file paths; `os.path.isfile` is membership and `os.remove`
is erasure. -/

/-- The state fields of `VidCleaner` that the claims touch. -/
structure VidCleanerState where
  inputVidFileSpec : String := ""
  inputSubsFileSpec : String := ""
  cleanSubsFileSpec : String := ""
  outputVidFileSpec : String := ""
  swearsFileSpec : String := ""
  swearsPadMillisec : Int := 0
  embedSubs : Bool := false
  fullSubs : Bool := false
  subsOnly : Bool := false
  edl : Bool := false
  jsonDump : Bool := false
  plexAutoSkipJson : String := ""
  plexAutoSkipId : String := ""
  reEncodeVideo : Bool := false
  reEncodeAudio : Bool := false
  hardCode : Bool := false
  aDownmix : Bool := false
deriving Repr, DecidableEq

/-- The constructor arguments (`None` is `none`; `swearsPadMillisec`
stands for the already-rounded `round(swearsPadSec * 1000.0)`). -/
structure InitParams where
  iVidFileSpec : Option String := none
  iSubsFileSpec : Option String := none
  oVidFileSpec : Option String := none
  oSubsFileSpec : Option String := none
  iSwearsFileSpec : Option String := none
  swearsPadMillisec : Int := 0
  embedSubs : Bool := false
  fullSubs : Bool := false
  subsOnly : Bool := false
  edl : Bool := false
  jsonDump : Bool := false
  plexAutoSkipJson : String := ""
  plexAutoSkipId : String := ""
  reEncodeVideo : Bool := false
  reEncodeAudio : Bool := false
  hardCode : Bool := false
  aDownmix : Bool := false
deriving Repr, DecidableEq

/-- `os.path.isfile` over the modelled filesystem. -/
def isfile (fs : List String) (p : String) : Bool := fs.contains p

/-- `VidCleaner.__init__`: validate the input video and swears paths
(IOError when absent), silently accept a missing subtitle path, then
delete any existing file at the output video and output subtitle paths,
and finally populate the state — in particular
`subsOnly = subsOnly or edl or (plexAutoSkipJson and plexAutoSkipId)`. -/
def vidCleanerInit (a : InitParams) (fs : List String) :
    Except String (VidCleanerState × List String) :=
  match a.iVidFileSpec with
  | some v =>
    if isfile fs v then
      let inputSubs :=
        match a.iSubsFileSpec with
        | some s => if isfile fs s then s else ""
        | none => ""
      match a.iSwearsFileSpec with
      | some w =>
        if isfile fs w then
          let step1 : String × List String :=
            match a.oVidFileSpec with
            | some o =>
              if o != "" then (o, if isfile fs o then fs.erase o else fs)
              else ("", fs)
            | none => ("", fs)
          let step2 : String × List String :=
            match a.oSubsFileSpec with
            | some o =>
              if o != "" then
                (o, if isfile step1.2 o then step1.2.erase o else step1.2)
              else ("", step1.2)
            | none => ("", step1.2)
          Except.ok
            ({ inputVidFileSpec := v
               inputSubsFileSpec := inputSubs
               cleanSubsFileSpec := step2.1
               outputVidFileSpec := step1.1
               swearsFileSpec := w
               swearsPadMillisec := a.swearsPadMillisec
               embedSubs := a.embedSubs
               fullSubs := a.fullSubs
               subsOnly := a.subsOnly || a.edl
                 || (a.plexAutoSkipJson != "" && a.plexAutoSkipId != "")
               edl := a.edl
               jsonDump := a.jsonDump
               plexAutoSkipJson := a.plexAutoSkipJson
               plexAutoSkipId := a.plexAutoSkipId
               reEncodeVideo := a.reEncodeVideo
               reEncodeAudio := a.reEncodeAudio
               hardCode := a.hardCode
               aDownmix := a.aDownmix }, step2.2)
        else Except.error "IOError: ENOENT swears file"
      | none => Except.error "IOError: ENOENT swears file"
    else Except.error "IOError: ENOENT input video"
  | none => Except.error "IOError: ENOENT input video"

/-- C9: giving the constructor output paths naming existing files deletes
those files during construction, before the subtitle input is even
looked at (here it is absent and no error results) and before any
scrubbing or artifact generation. -/
theorem claim_C9_init_deletes_outputs
    (fs : List String) (a : InitParams) (iVid iSwears oVid oSubs : String)
    (hvid : a.iVidFileSpec = some iVid) (hsw : a.iSwearsFileSpec = some iSwears)
    (hsubs : a.iSubsFileSpec = none)
    (hov : a.oVidFileSpec = some oVid) (hos : a.oSubsFileSpec = some oSubs)
    (hnd : fs.Nodup)
    (h1 : iVid ∈ fs) (h2 : iSwears ∈ fs)
    (h3 : oVid ≠ "") (h4 : oSubs ≠ "") (h5 : oVid ≠ oSubs)
    (h6 : oVid ∈ fs) (h7 : oSubs ∈ fs) :
    ∃ st fs2, vidCleanerInit a fs = Except.ok (st, fs2)
      ∧ oVid ∉ fs2 ∧ oSubs ∉ fs2
      ∧ st.outputVidFileSpec = oVid ∧ st.cleanSubsFileSpec = oSubs
      ∧ st.inputSubsFileSpec = "" := by
  have hv : isfile fs iVid = true := by simp [isfile, h1]
  have hw : isfile fs iSwears = true := by simp [isfile, h2]
  have hvfile : isfile fs oVid = true := by simp [isfile, h6]
  have hnd1 : (fs.erase oVid).Nodup := hnd.erase oVid
  have hsmem : oSubs ∈ fs.erase oVid := hnd.mem_erase_iff.mpr ⟨Ne.symm h5, h7⟩
  have hsfile : isfile (fs.erase oVid) oSubs = true := by simp [isfile, hsmem]
  refine ⟨{ inputVidFileSpec := iVid
            inputSubsFileSpec := ""
            cleanSubsFileSpec := oSubs
            outputVidFileSpec := oVid
            swearsFileSpec := iSwears
            swearsPadMillisec := a.swearsPadMillisec
            embedSubs := a.embedSubs
            fullSubs := a.fullSubs
            subsOnly := a.subsOnly || a.edl
              || (a.plexAutoSkipJson != "" && a.plexAutoSkipId != "")
            edl := a.edl
            jsonDump := a.jsonDump
            plexAutoSkipJson := a.plexAutoSkipJson
            plexAutoSkipId := a.plexAutoSkipId
            reEncodeVideo := a.reEncodeVideo
            reEncodeAudio := a.reEncodeAudio
            hardCode := a.hardCode
            aDownmix := a.aDownmix },
          (fs.erase oVid).erase oSubs, ?_, ?_, ?_, rfl, rfl, rfl⟩
  · simp only [vidCleanerInit, hvid, hsw, hsubs, hov, hos]
    simp [hv, hw, hvfile, hsfile, h3, h4]
  · intro hmem
    have hmem1 : oVid ∈ fs.erase oVid := (hnd1.mem_erase_iff.mp hmem).2
    exact (hnd.mem_erase_iff.mp hmem1).1 rfl
  · intro hmem
    exact (hnd1.mem_erase_iff.mp hmem).1 rfl

/-- C9 witness at a concrete filesystem. -/
theorem claim_C9_witness :
    ∃ st fs2,
      vidCleanerInit
        { iVidFileSpec := some "in.mp4", iSubsFileSpec := none,
          oVidFileSpec := some "out.mp4", oSubsFileSpec := some "out.srt",
          iSwearsFileSpec := some "swears.txt" }
        ["in.mp4", "swears.txt", "out.mp4", "out.srt"]
      = Except.ok (st, fs2)
      ∧ "out.mp4" ∉ fs2 ∧ "out.srt" ∉ fs2
      ∧ st.outputVidFileSpec = "out.mp4" ∧ st.cleanSubsFileSpec = "out.srt"
      ∧ st.inputSubsFileSpec = "" :=
  claim_C9_init_deletes_outputs
    ["in.mp4", "swears.txt", "out.mp4", "out.srt"]
    { iVidFileSpec := some "in.mp4", iSubsFileSpec := none,
      oVidFileSpec := some "out.mp4", oSubsFileSpec := some "out.srt",
      iSwearsFileSpec := some "swears.txt" }
    "in.mp4" "swears.txt" "out.mp4" "out.srt"
    rfl rfl rfl rfl rfl (by decide) (by decide) (by decide)
    (by decide) (by decide) (by decide) (by decide) (by decide)

/-- The decision core of `MultiplexCleanVideo` (lines 505-539):
whether a new video file is generated at all (line 512) and whether the
`-af` audio filter built from `muteTimeList` is attached to the ffmpeg
command (line 536).  `muteLen` is `len(self.muteTimeList)`;
`hasMoreThanStereo` abstracts the external `HasAudioMoreThanStereo`
probe, and the conditional downmix insertion (lines 534-535) grows the
list by one before the audio-filter test. -/
structure MuxPlan where
  generatesVideo : Bool
  audioFilterApplied : Bool
deriving Repr, DecidableEq

def multiplexPlan (st : VidCleanerState) (muteLen : Nat)
    (hasMoreThanStereo : Bool) : MuxPlan :=
  let generate := st.reEncodeVideo || st.reEncodeAudio || st.hardCode
    || st.embedSubs || (!st.subsOnly && decide (0 < muteLen))
  let muteLenAfterDownmix :=
    if st.aDownmix && hasMoreThanStereo then muteLen + 1 else muteLen
  { generatesVideo := generate
    audioFilterApplied :=
      generate && (!st.subsOnly && decide (0 < muteLenAfterDownmix)) }

/-- C10: requesting the EDL output, or supplying both a PlexAutoSkip
JSON path and a content identifier, forces `subsOnly`, and then the
fade-directive list is never attached as an audio filter, whatever the
mute list holds and whether or not a video is generated. -/
theorem claim_C10_subs_only_forced
    (a : InitParams) (fs : List String) (st : VidCleanerState)
    (fs2 : List String) (muteLen : Nat) (hms : Bool)
    (hok : vidCleanerInit a fs = Except.ok (st, fs2))
    (hsel : a.edl = true ∨ (a.plexAutoSkipJson ≠ "" ∧ a.plexAutoSkipId ≠ "")) :
    st.subsOnly = true
      ∧ (multiplexPlan st muteLen hms).audioFilterApplied = false := by
  have hsubs : st.subsOnly = true := by
    unfold vidCleanerInit at hok
    rcases hA : a.iVidFileSpec with _ | v
    · simp only [hA] at hok
      exact Except.noConfusion hok
    · simp only [hA] at hok
      by_cases hfv : isfile fs v = true
      · rw [if_pos hfv] at hok
        rcases hB : a.iSwearsFileSpec with _ | w
        · simp only [hB] at hok
          exact Except.noConfusion hok
        · simp only [hB] at hok
          by_cases hfw : isfile fs w = true
          · rw [if_pos hfw] at hok
            simp only [Except.ok.injEq, Prod.mk.injEq] at hok
            obtain ⟨hst, hfs⟩ := hok
            subst hst
            rcases hsel with he | ⟨hj, hi⟩ <;> simp_all
          · rw [if_neg hfw] at hok; exact Except.noConfusion hok
      · rw [if_neg hfv] at hok; exact Except.noConfusion hok
  refine ⟨hsubs, ?_⟩
  simp [multiplexPlan, hsubs]

/-- C10 witness: concrete EDL-mode construction. -/
theorem claim_C10_witness :
    ({ inputVidFileSpec := "in.mp4", swearsFileSpec := "swears.txt",
       subsOnly := true, edl := true } : VidCleanerState).subsOnly = true
      ∧ (multiplexPlan
          { inputVidFileSpec := "in.mp4", swearsFileSpec := "swears.txt",
            subsOnly := true, edl := true } 3 true).audioFilterApplied = false :=
  claim_C10_subs_only_forced
    { iVidFileSpec := some "in.mp4", iSwearsFileSpec := some "swears.txt",
      edl := true }
    ["in.mp4", "swears.txt"]
    { inputVidFileSpec := "in.mp4", swearsFileSpec := "swears.txt",
      subsOnly := true, edl := true }
    ["in.mp4", "swears.txt"] 3 true rfl (Or.inl rfl)

/-! CLI driver (`RunCleanvid`, lines 698-742): output-path defaulting,
PlexAutoSkip JSON defaulting, the configuration-conflict gate of lines
712-715, and only then the `VidCleaner` construction. -/

/-- `os.path.splitext`: split off the extension at the last dot of the
basename, unless every character before that dot (within the basename)
is itself a dot. -/
def splitext (s : String) : String × String :=
  let cs := s.toList
  let revChars := cs.reverse
  let baseLen :=
    match revChars.findIdx? (fun c => c = '/') with
    | some i => i
    | none => cs.length
  let base := revChars.take baseLen
  let dirPart := cs.take (cs.length - baseLen)
  match base.findIdx? (fun c => c = '.') with
  | some d =>
    let stem := (base.drop (d + 1)).reverse
    if stem.any (fun c => c ≠ '.') then
      (String.mk (dirPart ++ stem), String.mk ((base.take (d + 1)).reverse))
    else (s, "")
  | none => (s, "")

/-- The parsed CLI arguments used before the gate (`""` models an absent
optional argument; `padMillis` stands for the rounded pad). -/
structure CliArgs where
  input : String := ""
  output : String := ""
  subs : String := ""
  subsOut : String := ""
  swears : String := "swears.txt"
  plexAutoSkipJson : String := ""
  plexAutoSkipId : String := ""
  padMillis : Int := 0
  embedSubs : Bool := false
  fullSubs : Bool := false
  subsOnly : Bool := false
  edl : Bool := false
  json : Bool := false
  reEncodeVideo : Bool := false
  reEncodeAudio : Bool := false
  hardCode : Bool := false
  aDownmix : Bool := false
deriving Repr, DecidableEq

/-- `RunCleanvid` after argument parsing: default the output video name,
default the PlexAutoSkip JSON path when a content id was given, raise
the configuration conflict when a PlexAutoSkip JSON path is present
without a content id, and otherwise construct the `VidCleaner`.
(The `GetSubtitles` auto-download of line 708 is an excluded external
collaborator; the provided subtitle path is passed through.) -/
def runCleanvidGate (args : CliArgs) (fs : List String) :
    Except String (VidCleanerState × List String) :=
  let inFile := args.input
  let outFile :=
    if inFile != "" && args.output == "" then
      (splitext inFile).1 ++ "_clean" ++ (splitext inFile).2
    else args.output
  let subsFile := args.subs
  let plexFile :=
    if inFile != "" && args.plexAutoSkipId != "" && args.plexAutoSkipJson == "" then
      (splitext inFile).1 ++ "_PlexAutoSkip_clean.json"
    else args.plexAutoSkipJson
  if plexFile != "" && args.plexAutoSkipId == "" then
    Except.error "Content ID must be specified if creating a PlexAutoSkip JSON file"
  else
    vidCleanerInit
      { iVidFileSpec := some inFile
        iSubsFileSpec := some subsFile
        oVidFileSpec := some outFile
        oSubsFileSpec := some args.subsOut
        iSwearsFileSpec := some args.swears
        swearsPadMillisec := args.padMillis
        embedSubs := args.embedSubs
        fullSubs := args.fullSubs
        subsOnly := args.subsOnly
        edl := args.edl
        jsonDump := args.json
        plexAutoSkipJson := plexFile
        plexAutoSkipId := args.plexAutoSkipId
        reEncodeVideo := args.reEncodeVideo
        reEncodeAudio := args.reEncodeAudio
        hardCode := args.hardCode
        aDownmix := args.aDownmix } fs

/-- C7: a PlexAutoSkip JSON output requested without a content
identifier is rejected with the configuration-conflict error before the
cleaner is even constructed — for every filesystem, so no file is
touched, no cue is processed and no artifact is written. -/
theorem claim_C7_plex_conflict_rejected (args : CliArgs) (fs : List String)
    (hjson : args.plexAutoSkipJson ≠ "") (hid : args.plexAutoSkipId = "") :
    runCleanvidGate args fs
      = Except.error
          "Content ID must be specified if creating a PlexAutoSkip JSON file" := by
  unfold runCleanvidGate
  have h1 : (args.plexAutoSkipId != "") = false := by simp [hid]
  have h2 : (args.plexAutoSkipJson != "") = true := by simp [hjson]
  have h3 : (args.plexAutoSkipId == "") = true := by simp [hid]
  simp only [h1, h2, h3, Bool.and_false, Bool.false_and, Bool.and_true,
    Bool.true_and, if_false, Bool.false_eq_true, ite_false]
  simp [h2]

/-- C7 witness: concrete rejected configuration. -/
theorem claim_C7_witness :
    runCleanvidGate
      { input := "in.mp4", subs := "in.srt", plexAutoSkipJson := "skip.json" }
      ["in.mp4", "in.srt", "swears.txt"]
      = Except.error
          "Content ID must be specified if creating a PlexAutoSkip JSON file" :=
  claim_C7_plex_conflict_rejected
    { input := "in.mp4", subs := "in.srt", plexAutoSkipJson := "skip.json" }
    ["in.mp4", "in.srt", "swears.txt"] (by decide) rfl

/-! Vocabulary table and the compiled matcher (lines 329-339): the
swears file is parsed line by line into the caseless map, and the
replacer is `re.compile(r'\b(' + '|'.join(keys) + r')\b', re.IGNORECASE)`
used via `.sub` with a lookup-based replacement lambda.  The regex model
below covers exactly this pattern family: a word-boundary-anchored,
case-insensitive alternation of literals, scanned left to right with
leftmost-first alternative choice.  ASCII alphanumerics and the
underscore are word characters. -/

/-- Python `str.split(sep)` for a one-character separator. -/
def splitOnChar (sep : Char) : List Char → List (List Char)
  | [] => [[]]
  | c :: cs =>
    let r := splitOnChar sep cs
    if c == sep then [] :: r
    else
      match r with
      | h :: t => (c :: h) :: t
      | [] => [[c]]

def pySplit (sep : Char) (s : String) : List String :=
  (splitOnChar sep s.toList).map String.mk

/-- Python `sep.join(xs)`. -/
def pyJoin (sep : String) : List String → String
  | [] => ""
  | [x] => x
  | x :: xs => x ++ sep ++ pyJoin sep xs

/-- Python `str.lower()` (character-wise, as a kernel-reducible map). -/
def pyLower (s : String) : String := String.mk (s.toList.map Char.toLower)

/-- `CaselessDictionary` assignment: keys are lower-cased; an existing
key keeps its position (dict insertion order), a new key is appended. -/
def caselessSet (m : List (String × String)) (k v : String) :
    List (String × String) :=
  let key := pyLower k
  if m.any (fun kv => kv.1 == key) then
    m.map (fun kv => if kv.1 == key then (kv.1, v) else kv)
  else m ++ [(key, v)]

/-- Lines 329-337: each line is split at `|`; the part after the bar is
the replacement, defaulting to `*****`. -/
def loadSwears (lines : List String) : List (String × String) :=
  lines.foldl (fun m line =>
    let lineMap := pySplit '|' line
    caselessSet m (lineMap.headD "") (lineMap.getD 1 "*****")) []

/-- `CaselessDictionary.__getitem__`: lower-case the key and look it up;
a missing key is a `KeyError` (`none` here). -/
def caselessGet (m : List (String × String)) (k : String) : Option String :=
  (m.find? (fun kv => kv.1 == pyLower k)).map (fun kv => kv.2)

/-- The alternative list the compiled regex `\b(k1|k2|...)\b` really
contains: re-splitting the joined keys at `|`.  For an empty key list
the joined string is empty and the group holds the single empty
alternative - `\b()\b` - not zero alternatives. -/
def compiledAlternatives (keys : List String) : List String :=
  pySplit '|' (pyJoin "|" keys)

/-- Python `\w` (ASCII part): letters, digits, underscore. -/
def isWordChar (c : Char) : Bool := c.isAlphanum || c == '_'

def isWordOpt : Option Char → Bool
  | some c => isWordChar c
  | none => false

/-- `\b`: a word character on exactly one side of the position. -/
def isWordBoundary (prev nxt : Option Char) : Bool :=
  isWordOpt prev != isWordOpt nxt

/-- Case-insensitive literal match at the head of `rest`; returns the
matched slice (original case) and the remainder. -/
def matchLit : List Char → List Char → Option (List Char × List Char)
  | [], rest => some ([], rest)
  | _ :: _, [] => none
  | p :: ps, c :: cs =>
    if p.toLower == c.toLower then
      (matchLit ps cs).map (fun mr => (c :: mr.1, mr.2))
    else none

/-- Attempt `\b(alt1|...|altn)\b` at the current position (`prev` is the
character before it): the position must be a word boundary, and the
first alternative that matches and ends on a word boundary wins. -/
def tryAlternatives (alts : List (List Char)) (prev : Option Char)
    (rest : List Char) : Option (List Char × List Char) :=
  if isWordBoundary prev rest.head? then
    alts.findSome? (fun a =>
      match matchLit a rest with
      | some mr =>
        if isWordBoundary (if mr.1.isEmpty then prev else mr.1.getLast?)
            mr.2.head? then
          some mr
        else none
      | none => none)
  else none

/-- `re.sub` scan: try a match at each position from left to right; on a
match, the replacement lambda `lambda x: self.swearsMap[x.group()]`
looks the matched text up in the caseless map - a missing key raises
`KeyError` (modelled as `Except.error` carrying the missing key).  A
zero-width match emits its replacement and the scan advances one
character.  The fuel is at least `length + 1`, which the scan never
exhausts. -/
def reSubFuel (alts : List (List Char)) (lk : String → Option String) :
    Nat → Option Char → List Char → Except String (List Char)
  | 0, _, s => Except.ok s
  | fuel + 1, prev, s =>
    match tryAlternatives alts prev s with
    | some (m, r) =>
      match lk (String.mk m) with
      | none => Except.error (String.mk m)
      | some rep =>
        if m.isEmpty then
          match s with
          | [] => Except.ok rep.toList
          | c :: cs =>
            (reSubFuel alts lk fuel (some c) cs).map
              (fun t => rep.toList ++ c :: t)
        else
          (reSubFuel alts lk fuel m.getLast? r).map
            (fun t => rep.toList ++ t)
    | none =>
      match s with
      | [] => Except.ok []
      | c :: cs =>
        (reSubFuel alts lk fuel (some c) cs).map (fun t => c :: t)

/-- Line 362: `replacer.sub(lambda x: self.swearsMap[x.group()], text)`
for the replacer compiled at line 339 from `swearsMap`. -/
def replacerSub (swearsMap : List (String × String)) (text : String) :
    Except String String :=
  let alts := (compiledAlternatives (swearsMap.map (fun kv => kv.1))).map
    (fun a => a.toList)
  (reSubFuel alts (caselessGet swearsMap) (text.toList.length + 1)
      none text.toList).map (fun l => String.mk l)

/-- C5: with an empty vocabulary the compiled pattern is `\b()\b`, whose
group holds one *empty* alternative; it matches the empty string at the
first word boundary of any text containing a word character, and the
replacement lambda then looks up `''` in the empty caseless map and
raises `KeyError` — the matcher does *not* silently never-match.  Only
texts with no word character at all escape (fourth conjunct). -/
theorem claim_C5_empty_vocab_keyerror :
    loadSwears [] = []
      ∧ compiledAlternatives [] = [""]
      ∧ replacerSub (loadSwears []) "hello" = Except.error ""
      ∧ replacerSub (loadSwears []) "..." = Except.ok "..." :=
  ⟨rfl, rfl, rfl, rfl⟩

/-! The `strip_style` line and the tail of `CreateCleanSubAndMuteList`
(lines 417-420 and onward). -/

/-- pysrt `SubRipFile.text`: the newline join of the cue texts (a plain
string). -/
def subRipFileText (subs : List SubRipItem) : String :=
  pyJoin "\n" (subs.map (fun c => c.text))

/-- Line 418, `newSubs = newSubs.text.strip_style()`: `newSubs.text` is
a plain string and neither Python `str` nor anything in pysrt defines a
`strip_style` attribute, so the lookup raises `AttributeError` whatever
the cue list holds. -/
def stripStyleLine (subs : List SubRipItem) : Except String (List SubRipItem) :=
  Except.error ("AttributeError: str object " ++ subRipFileText subs
    ++ " has no attribute strip_style")

/-- What `CreateCleanSubAndMuteList` would deliver past line 418. -/
structure CleanListResult where
  savedSubs : List SubRipItem
  timeline : TimelineOut
  edlWritten : Bool
deriving Repr, DecidableEq

/-- `CreateCleanSubAndMuteList` from the scrub loop onward: run the
loop (which may itself abort with the `to_time` `ValueError`), execute
the strip-style line, and - were it reached - save the clean track and
build the timeline and EDL. -/
def createCleanSubAndMuteList (ap : String → String) (pad : Int)
    (fullSubs jsonDump edl plex : Bool) (subs : List SubRipItem) :
    Except String CleanListResult :=
  match createCleanSub ap pad fullSubs jsonDump subs with
  | Except.error e => Except.error e
  | Except.ok out =>
    match stripStyleLine out.newSubs with
    | Except.error e => Except.error e
    | Except.ok saved =>
      let t := timelinePass edl plex out.pairs
      Except.ok { savedSubs := saved, timeline := t,
                  edlWritten := edlFileWritten edl t }

/-- C8: for every input the pass aborts with an exception - at the
`strip_style` line with `AttributeError` whenever the scrub loop itself
completes; no cleaned subtitle track is ever saved (and no re-indexing
from 1 happens anywhere on this path). -/
theorem claim_C8_strip_style_crash (ap : String → String) (pad : Int)
    (ff jd edl plex : Bool) (subs : List SubRipItem) :
    ∃ msg, createCleanSubAndMuteList ap pad ff jd edl plex subs
      = Except.error msg := by
  cases h : createCleanSub ap pad ff jd subs with
  | error e => exact ⟨e, by simp [createCleanSubAndMuteList, h]⟩
  | ok out =>
    refine ⟨"AttributeError: str object " ++ subRipFileText out.newSubs
      ++ " has no attribute strip_style", ?_⟩
    simp [createCleanSubAndMuteList, h, stripStyleLine]

/-- Sanity check of the matcher model on a one-entry vocabulary:
case-insensitive whole-word replacement happens. -/
theorem replacerSub_heck_example :
    replacerSub (loadSwears ["heck|****"]) "What the Heck"
      = Except.ok "What the ****" := rfl

/-- Sanity check of the trailing word boundary: no replacement inside a
longer word. -/
theorem replacerSub_boundary_example :
    replacerSub (loadSwears ["heck|****"]) "heckler"
      = Except.ok "heckler" := rfl
